import Mathlib

/-
Shallow embedding of the payment-routing pipeline in src/1TEAM_XMAS_HACK.py.

Conventions of the embedding:
* pandas rows become structures; money/time columns become real numbers;
  timestamps become integers; currency codes become strings; provider
  identifiers become naturals (the code renders them with str(...)).
* the currency-rate table becomes a total function from currency code to
  rate (a missing rate, an integrity error out of scope for the claims,
  is not modelled).
* np.random.choice([True, False], p=[c, 1-c]) is modelled by drawing a
  uniform sample u from an explicit stream (rand : Nat -> Real, consumed
  at an index k incremented on every draw) and succeeding iff u < c.
* sort_values is modelled by insertion sort on the sort key; the source
  leaves the order of equal keys unspecified (numpy quicksort), and no
  claim below depends on the order of ties.
-/

namespace XmasHack

/-- One row of the providers table (after pd.to_datetime on TIME). -/
structure ProvRow where
  ID : ℕ
  CURRENCY : String
  TIME : ℤ
  MIN_SUM : ℝ
  MAX_SUM : ℝ
  LIMIT_MIN : ℝ
  LIMIT_MAX : ℝ
  COMMISSION : ℝ
  CONVERSION : ℝ
  AVG_TIME : ℝ

/-- One row of the payments table (fields used by optimize_routes). -/
structure Payment where
  amount : ℝ
  cur : String
  eventTimeRes : ℤ

/-- Per-transaction output columns written by optimize_routes:
flow, Profit, Processing_Time, and the Successful-provider cell
(initialised to the sentinel 0 and modelled as an Option). -/
structure RouteResult where
  flow : String
  profit : ℝ
  time : ℝ
  successful : Option ℕ

/-! ## TOPSIS (normalize_matrix, calculate_solutions, calculate_distances,
rank_providers, topsis — lines 21-79 of the source) -/

/-- The criterion columns ['CONVERSION', 'COMMISSION', 'AVG_TIME']
(line 123). -/
def crit (j : Fin 3) (p : ProvRow) : ℝ :=
  if j = 0 then p.CONVERSION else if j = 1 then p.COMMISSION else p.AVG_TIME

/-- The weights [0.2, 0.6, 0.2] (line 124). -/
def weights (j : Fin 3) : ℝ :=
  if j = 0 then 0.2 else if j = 1 then 0.6 else 0.2

/-- The marks ['max', 'min', 'min'] (line 125); true means 'max'. -/
def marks (j : Fin 3) : Bool := j = 0

/-- numpy .max() over a column, as a list fold (empty column unused). -/
def listMax : List ℝ → ℝ
  | [] => 0
  | x :: xs => xs.foldl max x

/-- numpy .min() over a column, as a list fold (empty column unused). -/
def listMin : List ℝ → ℝ
  | [] => 0
  | x :: xs => xs.foldl min x

/-- Euclidean norm of criterion column j: np.sqrt((matrix**2).sum(axis=0))
in normalize_matrix (line 27). -/
noncomputable def colNorm (ps : List ProvRow) (j : Fin 3) : ℝ :=
  Real.sqrt ((ps.map (fun p => crit j p ^ 2)).sum)

/-- Entry of the weighted normalized matrix for provider p and criterion j:
matrix / norm * weights (lines 27-28). -/
noncomputable def wval (ps : List ProvRow) (j : Fin 3) (p : ProvRow) : ℝ :=
  crit j p / colNorm ps j * weights j

/-- The ideal value of criterion j (calculate_solutions, lines 40-49):
column max when the mark is 'max', column min when it is 'min'. -/
noncomputable def goodVal (ps : List ProvRow) (j : Fin 3) : ℝ :=
  if marks j then listMax (ps.map (wval ps j)) else listMin (ps.map (wval ps j))

/-- The anti-ideal value of criterion j (calculate_solutions). -/
noncomputable def badVal (ps : List ProvRow) (j : Fin 3) : ℝ :=
  if marks j then listMin (ps.map (wval ps j)) else listMax (ps.map (wval ps j))

/-- Euclidean distance between a matrix row and a reference vector:
np.sqrt(((matrix - v)**2).sum(axis=1)) in calculate_distances (lines 56-57). -/
noncomputable def euclidDist {n : ℕ} (v w : Fin n → ℝ) : ℝ :=
  Real.sqrt (∑ j, (v j - w j) ^ 2)

/-- TOPSIS closeness coefficient of one row:
dist_to_bad / (dist_to_good + dist_to_bad) (line 58). -/
noncomputable def topsisCoef {n : ℕ} (row good bad : Fin n → ℝ) : ℝ :=
  euclidDist row bad / (euclidDist row good + euclidDist row bad)

/-- The topsis_score of provider p within the table ps (lines 66, 71-79). -/
noncomputable def score (ps : List ProvRow) (p : ProvRow) : ℝ :=
  topsisCoef (fun j => wval ps j p) (goodVal ps) (badVal ps)

/-- topsis: pair every provider with its score and sort by score
descending (rank_providers, lines 62-68). -/
noncomputable def topsis (ps : List ProvRow) : List (ProvRow × ℝ) :=
  List.insertionSort (fun a b => b.2 ≤ a.2) (ps.map (fun p => (p, score ps p)))

/-! ## Eligibility filter (lines 126-127) -/

/-- One comparison of idxmax: keep the incumbent unless the new row has a
strictly later TIME (idxmax returns the first occurrence of the maximum). -/
def pickFun (acc : Option ProvRow) (p : ProvRow) : Option ProvRow :=
  match acc with
  | none => some p
  | some q => if q.TIME < p.TIME then some p else some q

/-- groupby('ID')['TIME'].idxmax() applied to one group: keep the row
with the maximal TIME, the first such row among equal TIMEs. -/
def pickLatest (l : List ProvRow) : Option ProvRow :=
  l.foldl pickFun none

/-- The representative row of provider identifier i in table ps. -/
def latestFor (ps : List ProvRow) (i : ℕ) : Option ProvRow :=
  pickLatest (ps.filter (fun p => p.ID = i))

/-- Unique keys in first-occurrence order (python dict / groupby keys). -/
def firstDedup : List ℕ → List ℕ
  | [] => []
  | x :: xs => x :: (firstDedup xs).filter (fun y => y ≠ x)

/-- df.loc[df.groupby('ID')['TIME'].idxmax()]: one row per identifier,
the latest row of each, groups in ascending key order (line 127). -/
def groupLatest (ps : List ProvRow) : List ProvRow :=
  (List.insertionSort (fun a b => a ≤ b) (firstDedup (ps.map (fun p => p.ID)))).filterMap
    (latestFor ps)

/-- Lines 126-127: restrict to rows with TIME <= payment_time and
CURRENCY == currency, then keep the latest row per identifier. -/
def eligibleRows (ps : List ProvRow) (T : ℤ) (c : String) : List ProvRow :=
  groupLatest (ps.filter (fun p => p.TIME ≤ T ∧ p.CURRENCY = c))

/-- Follows the SPEC's words for the eligibility filter (section 4.3 /
claim C2), for comparison with eligibleRows: first restrict to currency
only and keep the per-identifier row of maximal TIME across all records,
then, separately, drop retained rows whose TIME exceeds T. -/
def eligibleSpec (ps : List ProvRow) (T : ℤ) (c : String) : List ProvRow :=
  (groupLatest (ps.filter (fun p => p.CURRENCY = c))).filter (fun p => p.TIME ≤ T)

/-! ## Route simulation (lines 135-173) -/

/-- The mutable per-transaction / per-batch state of the provider loop:
route, total_commission, total_processing_time, is_first, the
Successful-provider cell, the shared provider_daily_sums dict, and the
index of the next uniform sample of the random stream. -/
structure SimState where
  route : List String
  totalCommission : ℝ
  totalTime : ℝ
  isFirst : Bool
  successful : Option ℕ
  daily : ℕ → ℝ
  k : ℕ

/-- One iteration of the provider loop (lines 135-167) for provider p.
Conditions in source order: skip when the amount is outside
[MIN_SUM, MAX_SUM]; skip when the daily sum already reached LIMIT_MAX;
draw the Bernoulli outcome (uniform sample < CONVERSION); on failure add
AVG_TIME when is_first and append the identifier; on success with
insufficient remaining capacity add AVG_TIME when is_first and continue
WITHOUT appending; otherwise append and, when is_first, commit: record
the successful provider, add the amount to the daily sum, accrue
commission and time, and clear is_first. -/
noncomputable def step (rand : ℕ → ℝ) (amount : ℝ) (s : SimState) (p : ProvRow) :
    SimState :=
  if amount < p.MIN_SUM ∨ p.MAX_SUM < amount then s
  else if p.LIMIT_MAX ≤ s.daily p.ID then s
  else if rand s.k < p.CONVERSION then
    if p.LIMIT_MAX - s.daily p.ID < amount then
      if s.isFirst then
        { s with totalTime := s.totalTime + p.AVG_TIME, k := s.k + 1 }
      else
        { s with k := s.k + 1 }
    else if s.isFirst then
      { s with route := s.route ++ [toString p.ID],
               successful := some p.ID,
               daily := Function.update s.daily p.ID (s.daily p.ID + amount),
               totalCommission := s.totalCommission + amount * p.COMMISSION,
               totalTime := s.totalTime + p.AVG_TIME,
               isFirst := false,
               k := s.k + 1 }
    else
      { s with route := s.route ++ [toString p.ID], k := s.k + 1 }
  else if s.isFirst then
    { s with totalTime := s.totalTime + p.AVG_TIME,
             route := s.route ++ [toString p.ID],
             k := s.k + 1 }
  else
    { s with route := s.route ++ [toString p.ID], k := s.k + 1 }

/-- Lines 126-132: the ranked, time-filtered, score-sorted provider list
a payment's provider loop iterates over. -/
noncomputable def rankedFor (providers : List ProvRow) (pay : Payment) :
    List ProvRow :=
  ((List.insertionSort (fun a b => b.2 ≤ a.2)
      ((topsis (eligibleRows providers pay.eventTimeRes pay.cur)).filter
        (fun pr => pr.1.TIME ≤ pay.eventTimeRes))).map (fun pr => pr.1))

/-- Lines 169-173: join the route with '-', set Profit to
amount - total_commission only when the flow is non-empty (else keep the
initial 0), and record the processing time. -/
noncomputable def finishPayment (amount : ℝ) (s : SimState) :
    RouteResult × (ℕ → ℝ) × ℕ :=
  (⟨String.intercalate "-" s.route,
    if String.intercalate "-" s.route ≠ "" then amount - s.totalCommission else 0,
    s.totalTime, s.successful⟩, s.daily, s.k)

/-- Lines 113-173: process one payment. amount is converted by the
payment's currency rate (line 114); the provider loop folds step over the
ranked eligible providers starting from route = [], commissions and time
0, is_first = True and the incoming shared daily sums. -/
noncomputable def runPayment (rand : ℕ → ℝ) (rates : String → ℝ)
    (providers : List ProvRow) (daily : ℕ → ℝ) (k : ℕ) (pay : Payment) :
    RouteResult × (ℕ → ℝ) × ℕ :=
  finishPayment (pay.amount * rates pay.cur)
    ((rankedFor providers pay).foldl (step rand (pay.amount * rates pay.cur))
      ⟨[], 0, 0, true, none, daily, k⟩)

/-- Lines 97-99: LIMIT_MAX / LIMIT_MIN per identifier are overwritten by
the first record's values (groupby(['ID']).transform('first')). -/
def applyFirst (ps : List ProvRow) : List ProvRow :=
  ps.map (fun p =>
    match ps.find? (fun q => q.ID = p.ID) with
    | some q => { p with LIMIT_MAX := q.LIMIT_MAX, LIMIT_MIN := q.LIMIT_MIN }
    | none => p)

/-- Lines 101-107: merge the rate by CURRENCY and convert the monetary
columns MIN_SUM, MAX_SUM, LIMIT_MIN, LIMIT_MAX. -/
def convertRows (rates : String → ℝ) (ps : List ProvRow) : List ProvRow :=
  ps.map (fun p =>
    { p with MIN_SUM := p.MIN_SUM * rates p.CURRENCY,
             MAX_SUM := p.MAX_SUM * rates p.CURRENCY,
             LIMIT_MIN := p.LIMIT_MIN * rates p.CURRENCY,
             LIMIT_MAX := p.LIMIT_MAX * rates p.CURRENCY })

/-- One iteration of the transaction loop: run one payment from the
accumulated (results, daily sums, stream index). -/
noncomputable def batchStep (rand : ℕ → ℝ) (rates : String → ℝ)
    (providers : List ProvRow) (acc : List RouteResult × (ℕ → ℝ) × ℕ)
    (pay : Payment) : List RouteResult × (ℕ → ℝ) × ℕ :=
  (acc.1 ++ [(runPayment rand rates providers acc.2.1 acc.2.2 pay).1],
   (runPayment rand rates providers acc.2.1 acc.2.2 pay).2)

/-- The transaction loop (lines 112-173): thread the shared daily sums
and the random-stream index through the payments, collecting one
RouteResult per payment. -/
noncomputable def batchRun (rand : ℕ → ℝ) (rates : String → ℝ)
    (providers : List ProvRow) (st : (ℕ → ℝ) × ℕ) (payments : List Payment) :
    List RouteResult × (ℕ → ℝ) × ℕ :=
  payments.foldl (batchStep rand rates providers) ([], st)

/-- providers[providers['ID'] == provider_id]['LIMIT_MIN'].iloc[0]
(line 179): LIMIT_MIN of the first row with the given identifier. -/
def limitMinOf (ps : List ProvRow) (i : ℕ) : ℝ :=
  (((ps.filter (fun p => p.ID = i)).head?).map (fun p => p.LIMIT_MIN)).getD 0

/-- One iteration of the penalty loop (lines 178-184) for identifier i
over the accumulator (limit_penalty_used, limit_penalty_all): when the
daily sum falls short of LIMIT_MIN add 0.01 * shortfall to the
all-provider penalty, and additionally to the used-provider penalty when
the daily sum is positive. -/
noncomputable def penStep (ps : List ProvRow) (daily : ℕ → ℝ) (acc : ℝ × ℝ)
    (i : ℕ) : ℝ × ℝ :=
  (if 0 < daily i ∧ daily i < limitMinOf ps i
    then acc.1 + 0.01 * (limitMinOf ps i - daily i) else acc.1,
   if daily i < limitMinOf ps i
    then acc.2 + 0.01 * (limitMinOf ps i - daily i) else acc.2)

/-- Lines 176-185: fold the penalty step over the unique provider
identifiers (the keys of provider_daily_sums), starting from (0, 0).
Returns (limit_penalty_used, limit_penalty_all). -/
noncomputable def penalties (ps : List ProvRow) (daily : ℕ → ℝ) : ℝ × ℝ :=
  (firstDedup (ps.map (fun p => p.ID))).foldl (penStep ps daily) (0, 0)

/-- optimize_routes (lines 87-185): fix the daily limits to the first
record per identifier, convert the monetary columns, initialise every
daily sum to zero, process the payments in order, and compute the two
shortfall penalties from the final daily sums. -/
noncomputable def optimize_routes (payments : List Payment)
    (providers0 : List ProvRow) (rates : String → ℝ) (rand : ℕ → ℝ) :
    List RouteResult × ℝ × ℝ :=
  ((batchRun rand rates (convertRows rates (applyFirst providers0))
      ((fun _ => 0), 0) payments).1,
   penalties (convertRows rates (applyFirst providers0))
     (batchRun rand rates (convertRows rates (applyFirst providers0))
       ((fun _ => 0), 0) payments).2.1)

/-- Line 209 of process_transactions: the mean Processing_Time over the
rows whose flow is non-empty; pandas .mean() of an empty selection is
NaN, modelled as none. -/
noncomputable def time_mean (results : List RouteResult) : Option ℝ :=
  if ((results.filter (fun r => r.flow ≠ "")).map (fun r => r.time)) = []
  then none
  else some (((results.filter (fun r => r.flow ≠ "")).map (fun r => r.time)).sum /
    ((results.filter (fun r => r.flow ≠ "")).map (fun r => r.time)).length)

/-! ## Concrete table rows used by counterexamples and witnesses -/

/-- A provider with two records: an old one (TIME 1) and a late one
(TIME 5), both in currency "U" (fields beyond ID/CURRENCY/TIME unused). -/
def c2p1 : ProvRow := ⟨7, "U", 1, 0, 0, 0, 0, 0, 0, 0⟩

def c2p2 : ProvRow := ⟨7, "U", 5, 0, 0, 0, 0, 0, 0, 0⟩

/-- Provider 3: amount bounds [0, 1000], daily max 100, conversion 1,
average time 7. -/
def c1prov : ProvRow := ⟨3, "U", 0, 0, 1000, 0, 100, 0, 1, 7⟩

/-- A 150-unit payment in currency "U" at time 1: it exceeds provider
3's remaining daily capacity (100) while inside its amount bounds. -/
def c1pay : Payment := ⟨150, "U", 1⟩

/-- The simulator state at the start of a transaction with all daily
sums zero and the random stream at index 0. -/
def simInit : SimState := ⟨[], 0, 0, true, none, fun _ => 0, 0⟩

/-- Provider 4: amount bounds [0, 1000], daily max 50, conversion 1,
average time 2. -/
def c6prov : ProvRow := ⟨4, "U", 0, 0, 1000, 0, 50, 0, 1, 2⟩

/-- An 80-unit payment in currency "U" at time 1: it exceeds provider
4's remaining daily capacity (50) while inside its amount bounds. -/
def c6pay : Payment := ⟨80, "U", 1⟩

/-- Provider 5 with conversion probability 0: amount bounds [0, 1000],
daily max 1000, commission 0.3, average time 2. -/
def c3prov : ProvRow := ⟨5, "U", 0, 0, 1000, 0, 1000, 0.3, 0, 2⟩

/-- A 100-unit payment in currency "U" at time 1. -/
def c3pay : Payment := ⟨100, "U", 1⟩

/-- Provider 1 of the C4 scenario: commission 0.01, conversion 1,
daily max 1000, amount bounds [0, 1000], average time 1. -/
def pA : ProvRow := ⟨1, "U", 0, 0, 1000, 0, 1000, 0.01, 1, 1⟩

/-- Provider 2 of the C4 scenario: commission 0.05, otherwise like pA. -/
def pB : ProvRow := ⟨2, "U", 0, 0, 1000, 0, 1000, 0.05, 1, 1⟩

/-- The 100-unit transaction of the C4 scenario. -/
def c4pay : Payment := ⟨100, "U", 1⟩

/-- The invariant of the provider loop relating its state to the daily
sums d0 and successful-provider cell at transaction start: either
nothing has committed (is_first still set, cell untouched, sums
untouched) or exactly one provider has committed the amount (is_first
cleared, cell set to it, its daily sum increased once). -/
def commitInv (d0 : ℕ → ℝ) (amount : ℝ) (s : SimState) : Prop :=
  (s.isFirst = true ∧ s.successful = none ∧ s.daily = d0) ∨
  (s.isFirst = false ∧ ∃ i, s.successful = some i ∧
     s.daily = Function.update d0 i (d0 i + amount))

/-! ## Lemmas about the eligibility filter -/

lemma pickFun_cases (acc : Option ProvRow) (p y : ProvRow)
    (h : pickFun acc p = some y) :
    (acc = some y ∨ y = p) ∧ p.TIME ≤ y.TIME ∧
      (∀ r, acc = some r → r.TIME ≤ y.TIME) := by
  cases acc with
  | none =>
      simp only [pickFun] at h
      obtain rfl := Option.some.inj h
      exact ⟨Or.inr rfl, le_rfl, fun r hr => by cases hr⟩
  | some a =>
      simp only [pickFun] at h
      by_cases hlt : a.TIME < p.TIME
      · rw [if_pos hlt] at h
        obtain rfl := Option.some.inj h
        exact ⟨Or.inr rfl, le_rfl, fun r hr => by
          obtain rfl := Option.some.inj hr; exact hlt.le⟩
      · rw [if_neg hlt] at h
        obtain rfl := Option.some.inj h
        exact ⟨Or.inl rfl, not_lt.mp hlt, fun r hr => by
          obtain rfl := Option.some.inj hr; exact le_rfl⟩

lemma foldl_pick_spec (l : List ProvRow) :
    ∀ (acc : Option ProvRow) (q : ProvRow), l.foldl pickFun acc = some q →
      (acc = some q ∨ q ∈ l) ∧ (∀ r, acc = some r → r.TIME ≤ q.TIME) ∧
        (∀ r ∈ l, r.TIME ≤ q.TIME) := by
  induction l with
  | nil =>
      intro acc q h
      simp only [List.foldl_nil] at h
      refine ⟨Or.inl h, fun r hr => ?_, fun r hr => absurd hr (List.not_mem_nil r)⟩
      rw [h] at hr
      obtain rfl := Option.some.inj hr
      exact le_rfl
  | cons p t ih =>
      intro acc q h
      simp only [List.foldl_cons] at h
      obtain ⟨hmem, hmono, hall⟩ := ih (pickFun acc p) q h
      have hsome : ∃ y, pickFun acc p = some y := by
        cases acc with
        | none => exact ⟨p, rfl⟩
        | some a =>
            simp only [pickFun]
            by_cases hlt : a.TIME < p.TIME
            · exact ⟨p, if_pos hlt⟩
            · exact ⟨a, if_neg hlt⟩
      obtain ⟨y, hy⟩ := hsome
      obtain ⟨hy_mem, hy_p, hy_mono⟩ := pickFun_cases acc p y hy
      have hyq : y.TIME ≤ q.TIME := hmono y hy
      refine ⟨?_, ?_, ?_⟩
      · rcases hmem with hacc | hq
        · rw [hy] at hacc
          obtain rfl := Option.some.inj hacc
          rcases hy_mem with hacc' | rfl
          · exact Or.inl hacc'
          · exact Or.inr (List.mem_cons_self _ _)
        · exact Or.inr (List.mem_cons_of_mem _ hq)
      · intro r hr
        exact le_trans (hy_mono r hr) hyq
      · intro r hr
        rcases List.mem_cons.mp hr with rfl | hrt
        · exact le_trans hy_p hyq
        · exact hall r hrt

lemma foldl_pickFun_some (l : List ProvRow) :
    ∀ x : ProvRow, ∃ y, l.foldl pickFun (some x) = some y := by
  induction l with
  | nil => intro x; exact ⟨x, rfl⟩
  | cons p t ih =>
      intro x
      simp only [List.foldl_cons, pickFun]
      by_cases hlt : x.TIME < p.TIME
      · rw [if_pos hlt]; exact ih p
      · rw [if_neg hlt]; exact ih x

lemma pickLatest_spec (l : List ProvRow) (q : ProvRow)
    (h : pickLatest l = some q) : q ∈ l ∧ ∀ r ∈ l, r.TIME ≤ q.TIME := by
  unfold pickLatest at h
  obtain ⟨hmem, _, hall⟩ := foldl_pick_spec l none q h
  rcases hmem with hnone | hl
  · cases hnone
  · exact ⟨hl, hall⟩

lemma pickLatest_isSome (l : List ProvRow) (h : l ≠ []) :
    ∃ q, pickLatest l = some q := by
  cases l with
  | nil => exact absurd rfl h
  | cons p t =>
      unfold pickLatest
      simp only [List.foldl_cons, pickFun]
      exact foldl_pickFun_some t p

lemma latestFor_mem (ps : List ProvRow) (i : ℕ) (q : ProvRow)
    (h : latestFor ps i = some q) :
    q ∈ ps ∧ q.ID = i ∧ ∀ r ∈ ps, r.ID = i → r.TIME ≤ q.TIME := by
  unfold latestFor at h
  obtain ⟨hmem, hall⟩ := pickLatest_spec _ _ h
  rw [List.mem_filter] at hmem
  refine ⟨hmem.1, by simpa using hmem.2, fun r hr hid => ?_⟩
  exact hall r (List.mem_filter.mpr ⟨hr, by simpa using hid⟩)

lemma latestFor_exists (ps : List ProvRow) (i : ℕ)
    (h : ∃ r ∈ ps, r.ID = i) : ∃ q, latestFor ps i = some q := by
  unfold latestFor
  apply pickLatest_isSome
  intro hnil
  rw [List.filter_eq_nil_iff] at hnil
  obtain ⟨r, hr, hid⟩ := h
  exact hnil r hr (by simpa using hid)

lemma mem_firstDedup (x : ℕ) : ∀ l : List ℕ, x ∈ firstDedup l ↔ x ∈ l := by
  intro l
  induction l with
  | nil => simp [firstDedup]
  | cons a t ih =>
      simp only [firstDedup, List.mem_cons, List.mem_filter, ih]
      constructor
      · rintro (rfl | ⟨hx, _⟩)
        · exact Or.inl rfl
        · exact Or.inr hx
      · rintro (rfl | hx)
        · exact Or.inl rfl
        · by_cases hxa : x = a
          · exact Or.inl hxa
          · exact Or.inr ⟨hx, by simpa using hxa⟩

lemma mem_of_mem_groupLatest (ps : List ProvRow) (q : ProvRow)
    (h : q ∈ groupLatest ps) :
    q ∈ ps ∧ ∀ r ∈ ps, r.ID = q.ID → r.TIME ≤ q.TIME := by
  unfold groupLatest at h
  rw [List.mem_filterMap] at h
  obtain ⟨i, _, hlf⟩ := h
  obtain ⟨hmem, hid, hall⟩ := latestFor_mem ps i q hlf
  exact ⟨hmem, fun r hr hrid => hall r hr (hrid.trans hid)⟩

lemma groupLatest_exists (ps : List ProvRow) (i : ℕ)
    (h : ∃ r ∈ ps, r.ID = i) : ∃ q ∈ groupLatest ps, q.ID = i := by
  obtain ⟨q, hq⟩ := latestFor_exists ps i h
  refine ⟨q, ?_, (latestFor_mem ps i q hq).2.1⟩
  unfold groupLatest
  rw [List.mem_filterMap]
  refine ⟨i, ?_, hq⟩
  have hmap : i ∈ ps.map (fun p => p.ID) := by
    obtain ⟨r, hr, hid⟩ := h
    exact List.mem_map.mpr ⟨r, hr, hid⟩
  exact (List.perm_insertionSort _ _).mem_iff.mpr ((mem_firstDedup i _).mpr hmap)

/-! ## General lemmas about the TOPSIS distances -/

lemma euclidDist_nonneg {n : ℕ} (v w : Fin n → ℝ) : 0 ≤ euclidDist v w :=
  Real.sqrt_nonneg _

lemma euclidDist_self {n : ℕ} (v : Fin n → ℝ) : euclidDist v v = 0 := by
  simp [euclidDist]

/-! ## Lemmas about the route-simulation step and the batch fold -/

lemma intercalate_nil : String.intercalate "-" [] = "" := rfl

lemma intercalate_single (x : String) : String.intercalate "-" [x] = x := rfl

lemma step_daily_mono (rand : ℕ → ℝ) (amount : ℝ) (s : SimState) (p : ProvRow)
    (h : 0 ≤ amount) (i : ℕ) : s.daily i ≤ (step rand amount s p).daily i := by
  have hupd : s.daily i ≤ Function.update s.daily p.ID (s.daily p.ID + amount) i := by
    rw [Function.update_apply]
    split_ifs with hi
    · rw [hi]; linarith
    · exact le_rfl
  unfold step
  split_ifs <;> first | exact le_rfl | exact hupd

lemma step_daily_bound (rand : ℕ → ℝ) (amount : ℝ) (s : SimState) (p : ProvRow)
    (i : ℕ) (L : ℝ) (hL : p.ID = i → p.LIMIT_MAX = L) (hs : s.daily i ≤ L) :
    (step rand amount s p).daily i ≤ L := by
  unfold step
  split_ifs with h1 h2 h3 h4 h5 h6 h7
  · exact hs
  · exact hs
  · exact hs
  · exact hs
  · show Function.update s.daily p.ID (s.daily p.ID + amount) i ≤ L
    rw [Function.update_apply]
    split_ifs with hi
    · have hlim : p.LIMIT_MAX = L := hL hi.symm
      rw [not_lt] at h4
      linarith
    · exact hs
  · exact hs
  · exact hs
  · exact hs

lemma step_commitInv (rand : ℕ → ℝ) (amount : ℝ) (d0 : ℕ → ℝ) (s : SimState)
    (p : ProvRow) (h : commitInv d0 amount s) :
    commitInv d0 amount (step rand amount s p) := by
  unfold step
  split_ifs with h1 h2 h3 h4 h5 h6 h7
  · exact h
  · exact h
  · exact h
  · exact h
  · right
    rcases h with ⟨_, _, hd⟩ | ⟨hfirst, _⟩
    · exact ⟨rfl, p.ID, rfl, by rw [hd]⟩
    · rw [hfirst] at h6; cases h6
  · exact h
  · exact h
  · exact h

lemma foldl_daily_mono (rand : ℕ → ℝ) (amount : ℝ) (h : 0 ≤ amount)
    (l : List ProvRow) : ∀ (s : SimState) (i : ℕ),
      s.daily i ≤ (l.foldl (step rand amount) s).daily i := by
  induction l with
  | nil => intro s i; exact le_rfl
  | cons p t ih =>
      intro s i
      exact le_trans (step_daily_mono rand amount s p h i)
        (ih (step rand amount s p) i)

lemma foldl_daily_bound (rand : ℕ → ℝ) (amount : ℝ) (i : ℕ) (L : ℝ)
    (l : List ProvRow) (hL : ∀ p ∈ l, p.ID = i → p.LIMIT_MAX = L) :
    ∀ s : SimState, s.daily i ≤ L →
      (l.foldl (step rand amount) s).daily i ≤ L := by
  induction l with
  | nil => intro s hs; exact hs
  | cons p t ih =>
      intro s hs
      exact ih (fun q hq => hL q (List.mem_cons_of_mem _ hq))
        (step rand amount s p)
        (step_daily_bound rand amount s p i L (hL p (List.mem_cons_self _ _)) hs)

lemma foldl_commitInv (rand : ℕ → ℝ) (amount : ℝ) (d0 : ℕ → ℝ)
    (l : List ProvRow) : ∀ s : SimState, commitInv d0 amount s →
      commitInv d0 amount (l.foldl (step rand amount) s) := by
  induction l with
  | nil => intro s h; exact h
  | cons p t ih =>
      intro s h
      exact ih (step rand amount s p) (step_commitInv rand amount d0 s p h)

lemma mem_topsis (ps : List ProvRow) (pr : ProvRow × ℝ) (h : pr ∈ topsis ps) :
    pr.1 ∈ ps := by
  unfold topsis at h
  have hm := (List.perm_insertionSort _ _).mem_iff.mp h
  obtain ⟨p, hp, heq⟩ := List.mem_map.mp hm
  rw [← heq]
  exact hp

lemma mem_eligibleRows (ps : List ProvRow) (T : ℤ) (c : String) (q : ProvRow)
    (h : q ∈ eligibleRows ps T c) : q ∈ ps :=
  List.mem_filter.mp (mem_of_mem_groupLatest _ q h).1 |>.1

lemma mem_rankedFor (providers : List ProvRow) (pay : Payment) (q : ProvRow)
    (h : q ∈ rankedFor providers pay) : q ∈ providers := by
  unfold rankedFor at h
  obtain ⟨pr, hpr, hq⟩ := List.mem_map.mp h
  have h1 := (List.perm_insertionSort _ _).mem_iff.mp hpr
  have h2 := (List.mem_filter.mp h1).1
  have h3 := mem_topsis _ pr h2
  rw [← hq]
  exact mem_eligibleRows _ _ _ _ h3

lemma runPayment_daily_mono (rand : ℕ → ℝ) (rates : String → ℝ)
    (providers : List ProvRow) (daily : ℕ → ℝ) (k : ℕ) (pay : Payment)
    (h : 0 ≤ pay.amount * rates pay.cur) (i : ℕ) :
    daily i ≤ (runPayment rand rates providers daily k pay).2.1 i := by
  unfold runPayment finishPayment
  exact foldl_daily_mono rand _ h (rankedFor providers pay)
    ⟨[], 0, 0, true, none, daily, k⟩ i

lemma runPayment_daily_bound (rand : ℕ → ℝ) (rates : String → ℝ)
    (providers : List ProvRow) (daily : ℕ → ℝ) (k : ℕ) (pay : Payment)
    (i : ℕ) (L : ℝ) (hL : ∀ p ∈ providers, p.ID = i → p.LIMIT_MAX = L)
    (hs : daily i ≤ L) :
    (runPayment rand rates providers daily k pay).2.1 i ≤ L := by
  unfold runPayment finishPayment
  exact foldl_daily_bound rand _ i L (rankedFor providers pay)
    (fun p hp => hL p (mem_rankedFor providers pay p hp))
    ⟨[], 0, 0, true, none, daily, k⟩ hs

lemma runPayment_commit (rand : ℕ → ℝ) (rates : String → ℝ)
    (providers : List ProvRow) (daily : ℕ → ℝ) (k : ℕ) (pay : Payment) :
    ((runPayment rand rates providers daily k pay).1.successful = none ∧
      (runPayment rand rates providers daily k pay).2.1 = daily) ∨
    (∃ i, (runPayment rand rates providers daily k pay).1.successful = some i ∧
      (runPayment rand rates providers daily k pay).2.1 =
        Function.update daily i (daily i + pay.amount * rates pay.cur)) := by
  have hinv := foldl_commitInv rand (pay.amount * rates pay.cur) daily
    (rankedFor providers pay) ⟨[], 0, 0, true, none, daily, k⟩
    (Or.inl ⟨rfl, rfl, rfl⟩)
  unfold runPayment finishPayment
  rcases hinv with ⟨_, hsucc, hd⟩ | ⟨_, i, hsucc, hd⟩
  · exact Or.inl ⟨hsucc, hd⟩
  · exact Or.inr ⟨i, hsucc, hd⟩

lemma foldl_batchStep_snd (rand : ℕ → ℝ) (rates : String → ℝ)
    (ps : List ProvRow) (l : List Payment) :
    ∀ acc : List RouteResult × (ℕ → ℝ) × ℕ,
      (l.foldl (batchStep rand rates ps) acc).2 =
        (l.foldl (batchStep rand rates ps) ([], acc.2)).2 := by
  induction l with
  | nil => intro acc; rfl
  | cons pay t ih =>
      intro acc
      simp only [List.foldl_cons]
      rw [ih (batchStep rand rates ps acc pay),
        ih (batchStep rand rates ps ([], acc.2) pay)]
      rfl

lemma batchRun_cons (rand : ℕ → ℝ) (rates : String → ℝ) (ps : List ProvRow)
    (st : (ℕ → ℝ) × ℕ) (pay : Payment) (t : List Payment) :
    (batchRun rand rates ps st (pay :: t)).2 =
      (batchRun rand rates ps
        ((runPayment rand rates ps st.1 st.2 pay).2) t).2 := by
  unfold batchRun
  simp only [List.foldl_cons]
  rw [foldl_batchStep_snd]
  rfl

lemma batchRun_append_snd (rand : ℕ → ℝ) (rates : String → ℝ)
    (ps : List ProvRow) (st : (ℕ → ℝ) × ℕ) (pre post : List Payment) :
    (batchRun rand rates ps st (pre ++ post)).2 =
      (batchRun rand rates ps ((batchRun rand rates ps st pre).2) post).2 := by
  unfold batchRun
  rw [List.foldl_append, foldl_batchStep_snd]

lemma batch_daily_mono (rand : ℕ → ℝ) (rates : String → ℝ)
    (ps : List ProvRow) : ∀ (l : List Payment) (st : (ℕ → ℝ) × ℕ) (i : ℕ),
      (∀ pay ∈ l, 0 ≤ pay.amount * rates pay.cur) →
      st.1 i ≤ (batchRun rand rates ps st l).2.1 i := by
  intro l
  induction l with
  | nil => intro st i _; exact le_rfl
  | cons pay t ih =>
      intro st i hpos
      rw [batchRun_cons]
      exact le_trans
        (runPayment_daily_mono rand rates ps st.1 st.2 pay
          (hpos pay (List.mem_cons_self _ _)) i)
        (ih _ i (fun q hq => hpos q (List.mem_cons_of_mem _ hq)))

lemma batch_daily_bound (rand : ℕ → ℝ) (rates : String → ℝ)
    (ps : List ProvRow) (i : ℕ) (L : ℝ)
    (hL : ∀ p ∈ ps, p.ID = i → p.LIMIT_MAX = L) :
    ∀ (l : List Payment) (st : (ℕ → ℝ) × ℕ), st.1 i ≤ L →
      (batchRun rand rates ps st l).2.1 i ≤ L := by
  intro l
  induction l with
  | nil => intro st hs; exact hs
  | cons pay t ih =>
      intro st hs
      rw [batchRun_cons]
      exact ih _ (runPayment_daily_bound rand rates ps st.1 st.2 pay i L hL hs)

/-! ## Evaluation lemmas for a single-provider pipeline run -/

lemma applyFirst_single (p : ProvRow) : applyFirst [p] = [p] := by
  have h : List.find? (fun q => q.ID = p.ID) [p] = some p := by
    simp [List.find?_cons_of_pos]
  simp [applyFirst, h]

lemma convertRows_one (ps : List ProvRow) : convertRows (fun _ => 1) ps = ps := by
  induction ps with
  | nil => rfl
  | cons p t ih =>
      simp only [convertRows, List.map_cons] at *
      rw [ih]
      rcases p with ⟨i, c, tt, a, b, d, e, f, g, hh⟩
      simp

lemma groupLatest_single (p : ProvRow) : groupLatest [p] = [p] := by
  simp [groupLatest, firstDedup, latestFor, pickLatest, pickFun,
    List.insertionSort, List.orderedInsert]

lemma eligibleRows_single (p : ProvRow) (T : ℤ) (c : String)
    (hT : p.TIME ≤ T) (hc : p.CURRENCY = c) : eligibleRows [p] T c = [p] := by
  have hf : ([p].filter (fun q => q.TIME ≤ T ∧ q.CURRENCY = c)) = [p] := by
    simp [hT, hc]
  rw [eligibleRows, hf, groupLatest_single]

lemma rankedFor_single (p : ProvRow) (pay : Payment)
    (hT : p.TIME ≤ pay.eventTimeRes) (hc : p.CURRENCY = pay.cur) :
    rankedFor [p] pay = [p] := by
  unfold rankedFor
  rw [eligibleRows_single p _ _ hT hc]
  have ht : topsis [p] = [(p, score [p] p)] := rfl
  rw [ht]
  simp [List.insertionSort, List.orderedInsert, hT]

/-- Evaluation of the whole pipeline on one payment and one eligible
provider with conversion probability 0: the draw fails, the identifier
is appended, time accrues, nothing commits, and — the flow being
non-empty — the profit is the full amount minus a zero commission. -/
lemma run_conv_zero (rand : ℕ → ℝ) (p : ProvRow) (pay : Payment)
    (hconv : p.CONVERSION = 0) (hrand : ∀ n, 0 ≤ rand n)
    (hbounds : ¬(pay.amount < p.MIN_SUM ∨ p.MAX_SUM < pay.amount))
    (hlim : 0 < p.LIMIT_MAX)
    (hT : p.TIME ≤ pay.eventTimeRes) (hc : p.CURRENCY = pay.cur)
    (hID : toString p.ID ≠ "") :
    (optimize_routes [pay] [p] (fun _ => 1) rand).1 =
      [⟨toString p.ID, pay.amount, p.AVG_TIME, none⟩] := by
  have hb : ¬(pay.amount * (1 : ℝ) < p.MIN_SUM ∨ p.MAX_SUM < pay.amount * 1) := by
    rw [mul_one]; exact hbounds
  have hnotlim : ¬(p.LIMIT_MAX ≤ (0 : ℝ)) := not_le.mpr hlim
  have hfail : ¬(rand 0 < p.CONVERSION) := by
    rw [hconv]; exact not_lt.mpr (hrand 0)
  unfold optimize_routes
  rw [applyFirst_single, convertRows_one]
  unfold batchRun batchStep
  simp only [List.foldl_cons, List.foldl_nil, List.nil_append]
  suffices hrun : (runPayment rand (fun _ => 1) [p] (fun _ => 0) 0 pay).1 =
      ⟨toString p.ID, pay.amount, p.AVG_TIME, none⟩ by
    rw [hrun]
  unfold runPayment
  rw [rankedFor_single p pay hT hc]
  simp only [List.foldl_cons, List.foldl_nil]
  show (finishPayment (pay.amount * 1)
      (step rand (pay.amount * 1) ⟨[], 0, 0, true, none, fun _ => 0, 0⟩ p)).1 = _
  unfold step
  rw [if_neg hb]
  show (finishPayment (pay.amount * 1)
      (if p.LIMIT_MAX ≤ (0 : ℝ) then _ else _)).1 = _
  rw [if_neg hnotlim, if_neg hfail, if_pos rfl]
  unfold finishPayment
  simp [intercalate_single, hID]

/-! ## Claim theorems: C2 -/

/-- C2 counterexample: for a transaction at time 3, the code keeps
provider 7 through its older record (the time filter runs BEFORE the
per-identifier maximum), while the claimed two-step selection (latest
record per identifier first, time filter second) would exclude it: the
two selections differ at this input, so the claim is false. -/
theorem C2_counterexample :
    ((eligibleRows [c2p1, c2p2] 3 "U").map (fun p => p.ID) = [7]) ∧
    eligibleSpec [c2p1, c2p2] 3 "U" = [] := by
  constructor
  · rfl
  · rfl

/-- C2 amended: eligibility restricts to records with matching currency
AND timestamp at most T, then keeps, per identifier, the record of
maximal timestamp among those; consequently every selected record is
valid at T and maximal among the valid ones, and a provider with any
record of matching currency and timestamp at most T stays eligible even
when its globally latest record postdates T. -/
theorem C2_amended_eligibility (ps : List ProvRow) (T : ℤ) (c : String) :
    (∀ q ∈ eligibleRows ps T c,
       q ∈ ps ∧ q.TIME ≤ T ∧ q.CURRENCY = c ∧
       ∀ r ∈ ps, r.ID = q.ID → r.CURRENCY = c → r.TIME ≤ T → r.TIME ≤ q.TIME) ∧
    (∀ i, (∃ r ∈ ps, r.ID = i ∧ r.CURRENCY = c ∧ r.TIME ≤ T) →
       ∃ q ∈ eligibleRows ps T c, q.ID = i) := by
  constructor
  · intro q hq
    obtain ⟨hqf, hmax⟩ := mem_of_mem_groupLatest _ q hq
    rw [List.mem_filter] at hqf
    have hcond : q.TIME ≤ T ∧ q.CURRENCY = c := by simpa using hqf.2
    refine ⟨hqf.1, hcond.1, hcond.2, fun r hr hid hcur htime => ?_⟩
    exact hmax r (List.mem_filter.mpr ⟨hr, by simp [htime, hcur]⟩) hid
  · intro i ⟨r, hr, hid, hcur, htime⟩
    obtain ⟨q, hq, hqid⟩ := groupLatest_exists
      (ps.filter (fun p => p.TIME ≤ T ∧ p.CURRENCY = c)) i
      ⟨r, List.mem_filter.mpr ⟨hr, by simp [htime, hcur]⟩, hid⟩
    exact ⟨q, hq, hqid⟩

/-- Witness for C2's amended statement at the counterexample's input:
provider 7 has a record at time 1 ≤ 3 in currency "U", so it is
eligible at time 3. -/
theorem C2_witness :
    ∃ q ∈ eligibleRows [c2p1, c2p2] 3 "U", q.ID = 7 :=
  (C2_amended_eligibility [c2p1, c2p2] 3 "U").2 7
    ⟨c2p1, List.mem_cons_self _ _, rfl, rfl, by decide⟩

/-! ## Claim theorems: C1, C5, C6 -/

/-- C1 amended: when a provider's Bernoulli draw succeeds but its
available capacity (dailyMax minus accumulated) is less than the
transaction amount, the attempt is treated as a failure, the provider's
average time is added to the total time only if nothing has committed
yet, and processing continues with the next provider — but, unlike the
failed-draw branch, the provider's identifier is NOT appended to the
route (lines 156-158 have no route.append). -/
theorem C1_insufficient_capacity_no_append (rand : ℕ → ℝ) (amount : ℝ)
    (s : SimState) (p : ProvRow)
    (h1 : ¬(amount < p.MIN_SUM ∨ p.MAX_SUM < amount))
    (h2 : ¬(p.LIMIT_MAX ≤ s.daily p.ID))
    (h3 : rand s.k < p.CONVERSION)
    (h4 : p.LIMIT_MAX - s.daily p.ID < amount) :
    (step rand amount s p).route = s.route ∧
    (step rand amount s p).totalTime =
      s.totalTime + (if s.isFirst then p.AVG_TIME else 0) ∧
    (step rand amount s p).daily = s.daily ∧
    (step rand amount s p).successful = s.successful ∧
    (step rand amount s p).isFirst = s.isFirst ∧
    (step rand amount s p).k = s.k + 1 := by
  unfold step
  rw [if_neg h1, if_neg h2, if_pos h3, if_pos h4]
  by_cases hf : s.isFirst = true
  · simp [hf]
  · simp [hf]

/-- Witness for C1's amended statement: provider 3 (daily max 100,
conversion 1) facing a 150-unit amount with empty daily sums: the draw
succeeds, capacity is insufficient, the route stays empty and only time
and the stream index advance. -/
theorem C1_witness :
    (step (fun _ => 0) 150 simInit c1prov).route = simInit.route ∧
    (step (fun _ => 0) 150 simInit c1prov).totalTime =
      simInit.totalTime + (if simInit.isFirst then c1prov.AVG_TIME else 0) ∧
    (step (fun _ => 0) 150 simInit c1prov).daily = simInit.daily ∧
    (step (fun _ => 0) 150 simInit c1prov).successful = simInit.successful ∧
    (step (fun _ => 0) 150 simInit c1prov).isFirst = simInit.isFirst ∧
    (step (fun _ => 0) 150 simInit c1prov).k = simInit.k + 1 :=
  C1_insufficient_capacity_no_append (fun _ => 0) 150 simInit c1prov
    (by norm_num [c1prov]) (by norm_num [c1prov, simInit])
    (by norm_num [c1prov, simInit]) (by norm_num [c1prov, simInit])

/-- C1 counterexample: on the success-but-insufficient-capacity branch
the claim asserts the provider's identifier is appended to the route; at
this concrete input (provider 3, daily max 100, conversion 1, amount
150) the draw is consumed (stream index 0 to 1) and the average time 7
is accrued, yet the flow stays empty — the identifier was not appended,
so the claim is false. -/
theorem C1_counterexample :
    (runPayment (fun _ => 0) (fun _ => 1) [c1prov] (fun _ => 0) 0 c1pay).1.flow
      = "" ∧
    (runPayment (fun _ => 0) (fun _ => 1) [c1prov] (fun _ => 0) 0 c1pay).1.time
      = 7 ∧
    (runPayment (fun _ => 0) (fun _ => 1) [c1prov] (fun _ => 0) 0
      c1pay).1.successful = none ∧
    (runPayment (fun _ => 0) (fun _ => 1) [c1prov] (fun _ => 0) 0 c1pay).2.2
      = 1 := by
  have hr : rankedFor [c1prov] c1pay = [c1prov] := rfl
  unfold runPayment
  rw [hr]
  simp only [List.foldl_cons, List.foldl_nil]
  norm_num [step, c1prov, c1pay, finishPayment, intercalate_nil]

/-- C5: across any batch, each provider's accumulated daily sum never
decreases (when converted amounts are non-negative); within one
transaction it changes only if that provider is recorded as the
successful (committing) provider; and it never exceeds the provider's
fixed daily max: a commit is only performed when the remaining capacity
covers the amount. -/
theorem C5_daily_sums_invariant (rand : ℕ → ℝ) (rates : String → ℝ)
    (providers : List ProvRow) (st : (ℕ → ℝ) × ℕ) (payments : List Payment) :
    ((∀ pay ∈ payments, 0 ≤ pay.amount * rates pay.cur) →
      ∀ pre post, payments = pre ++ post → ∀ i,
        (batchRun rand rates providers st pre).2.1 i ≤
          (batchRun rand rates providers st payments).2.1 i) ∧
    (∀ (daily : ℕ → ℝ) (k : ℕ) (pay : Payment) (i : ℕ),
      (runPayment rand rates providers daily k pay).2.1 i ≠ daily i →
        (runPayment rand rates providers daily k pay).1.successful = some i) ∧
    (∀ i L, (∀ p ∈ providers, p.ID = i → p.LIMIT_MAX = L) → st.1 i ≤ L →
      (batchRun rand rates providers st payments).2.1 i ≤ L) := by
  refine ⟨?_, ?_, ?_⟩
  · intro hpos pre post heq i
    subst heq
    rw [batchRun_append_snd]
    exact batch_daily_mono rand rates providers post _ i
      (fun q hq => hpos q (List.mem_append.mpr (Or.inr hq)))
  · intro daily k pay i hne
    rcases runPayment_commit rand rates providers daily k pay with
      ⟨_, hd⟩ | ⟨j, hs, hd⟩
    · exact absurd (congrFun hd i) hne
    · by_cases hij : i = j
      · rw [hij]; exact hs
      · have : (runPayment rand rates providers daily k pay).2.1 i = daily i := by
          rw [hd, Function.update_apply, if_neg hij]
        exact absurd this hne
  · intro i L hL hst
    exact batch_daily_bound rand rates providers i L hL payments st hst

/-- Witness for C5: with provider 3 (daily max 100) and the 100-unit
payment, the final accumulated sum of provider 3 stays at most 100. -/
theorem C5_witness :
    (batchRun (fun _ => 0) (fun _ => 1) [c1prov] ((fun _ => 0), 0)
      [c3pay]).2.1 3 ≤ 100 :=
  (C5_daily_sums_invariant (fun _ => 0) (fun _ => 1) [c1prov]
      ((fun _ => 0), 0) [c3pay]).2.2 3 100
    (fun p hp _ => by rw [List.mem_singleton] at hp; rw [hp]; rfl)
    (by norm_num)

/-- C6 amended: per transaction at most one provider commits (the
successful-provider cell is either untouched with unchanged daily sums,
or set to exactly one provider whose daily sum alone grew by the
amount); and a provider reaching the Bernoulli draw is recorded in the
flow in every case EXCEPT when the draw succeeds and the remaining
capacity is below the amount, in which case nothing is recorded
(providers failing the amount-bounds or daily-limit prechecks are
skipped without a draw and without a record). -/
theorem C6_commit_and_flow :
    (∀ (rand : ℕ → ℝ) (rates : String → ℝ) (providers : List ProvRow)
        (daily : ℕ → ℝ) (k : ℕ) (pay : Payment),
      ((runPayment rand rates providers daily k pay).1.successful = none ∧
        (runPayment rand rates providers daily k pay).2.1 = daily) ∨
      (∃ i, (runPayment rand rates providers daily k pay).1.successful = some i ∧
        (runPayment rand rates providers daily k pay).2.1 =
          Function.update daily i (daily i + pay.amount * rates pay.cur))) ∧
    (∀ (rand : ℕ → ℝ) (amount : ℝ) (s : SimState) (p : ProvRow),
      ((amount < p.MIN_SUM ∨ p.MAX_SUM < amount) → step rand amount s p = s) ∧
      (¬(amount < p.MIN_SUM ∨ p.MAX_SUM < amount) →
        p.LIMIT_MAX ≤ s.daily p.ID → step rand amount s p = s) ∧
      (¬(amount < p.MIN_SUM ∨ p.MAX_SUM < amount) →
        ¬(p.LIMIT_MAX ≤ s.daily p.ID) → ¬(rand s.k < p.CONVERSION) →
        (step rand amount s p).route = s.route ++ [toString p.ID]) ∧
      (¬(amount < p.MIN_SUM ∨ p.MAX_SUM < amount) →
        ¬(p.LIMIT_MAX ≤ s.daily p.ID) → rand s.k < p.CONVERSION →
        ¬(p.LIMIT_MAX - s.daily p.ID < amount) →
        (step rand amount s p).route = s.route ++ [toString p.ID]) ∧
      (¬(amount < p.MIN_SUM ∨ p.MAX_SUM < amount) →
        ¬(p.LIMIT_MAX ≤ s.daily p.ID) → rand s.k < p.CONVERSION →
        p.LIMIT_MAX - s.daily p.ID < amount →
        (step rand amount s p).route = s.route)) := by
  constructor
  · intro rand rates providers daily k pay
    exact runPayment_commit rand rates providers daily k pay
  · intro rand amount s p
    refine ⟨?_, ?_, ?_, ?_, ?_⟩
    · intro h1
      unfold step
      rw [if_pos h1]
    · intro h1 h2
      unfold step
      rw [if_neg h1, if_pos h2]
    · intro h1 h2 h3
      unfold step
      rw [if_neg h1, if_neg h2, if_neg h3]
      by_cases hf : s.isFirst = true <;> simp [hf]
    · intro h1 h2 h3 h4
      unfold step
      rw [if_neg h1, if_neg h2, if_pos h3, if_neg h4]
      by_cases hf : s.isFirst = true <;> simp [hf]
    · intro h1 h2 h3 h4
      unfold step
      rw [if_neg h1, if_neg h2, if_pos h3, if_pos h4]
      by_cases hf : s.isFirst = true <;> simp [hf]

/-- Witness for C6's amended statement: provider 4 (daily max 50,
conversion 1) facing an 80-unit amount: the draw succeeds, capacity is
insufficient, and nothing is appended to the route. -/
theorem C6_witness :
    (step (fun _ => 0) 80 simInit c6prov).route = simInit.route :=
  (C6_commit_and_flow.2 (fun _ => 0) 80 simInit c6prov).2.2.2.2
    (by norm_num [c6prov]) (by norm_num [c6prov, simInit])
    (by norm_num [c6prov, simInit]) (by norm_num [c6prov, simInit])

/-- C6 counterexample: the claim asserts every attempted provider is
recorded in the flow; at this concrete input provider 4 is attempted (a
Bernoulli draw is consumed: the stream index advances from 0 to 1, and
its average time 2 accrues) yet the flow is empty, so the claim is
false. -/
theorem C6_counterexample :
    (runPayment (fun _ => 0) (fun _ => 1) [c6prov] (fun _ => 0) 0 c6pay).2.2
      = 1 ∧
    (runPayment (fun _ => 0) (fun _ => 1) [c6prov] (fun _ => 0) 0 c6pay).1.time
      = 2 ∧
    (runPayment (fun _ => 0) (fun _ => 1) [c6prov] (fun _ => 0) 0 c6pay).1.flow
      = "" := by
  have hr : rankedFor [c6prov] c6pay = [c6prov] := rfl
  unfold runPayment
  rw [hr]
  simp only [List.foldl_cons, List.foldl_nil]
  norm_num [step, c6prov, c6pay, finishPayment, intercalate_nil]

/-! ## Evaluation lemmas for the two-provider TOPSIS scenario (C4) -/

lemma c4_s1_pos : 0 < colNorm [pA, pB] 1 := by
  apply Real.sqrt_pos.mpr
  simp [crit, pA, pB]
  norm_num

lemma c4_scores : score [pA, pB] pA = 1 ∧ score [pA, pB] pB = 0 := by
  have hs1 := c4_s1_pos
  have hA0 : wval [pA, pB] 0 pA = 1 / colNorm [pA, pB] 0 * 0.2 := by
    simp [wval, crit, weights, pA, pB]
  have hB0 : wval [pA, pB] 0 pB = 1 / colNorm [pA, pB] 0 * 0.2 := by
    simp [wval, crit, weights, pA, pB]
  have hA1 : wval [pA, pB] 1 pA = 0.01 / colNorm [pA, pB] 1 * 0.6 := by
    simp [wval, crit, weights, pA, pB]
  have hB1 : wval [pA, pB] 1 pB = 0.05 / colNorm [pA, pB] 1 * 0.6 := by
    simp [wval, crit, weights, pA, pB]
  have hA2 : wval [pA, pB] 2 pA = 1 / colNorm [pA, pB] 2 * 0.2 := by
    simp [wval, crit, weights, pA, pB]
  have hB2 : wval [pA, pB] 2 pB = 1 / colNorm [pA, pB] 2 * 0.2 := by
    simp [wval, crit, weights, pA, pB]
  have hab : 0.01 / colNorm [pA, pB] 1 * 0.6 < 0.05 / colNorm [pA, pB] 1 * 0.6 := by
    apply mul_lt_mul_of_pos_right _ (by norm_num)
    exact (div_lt_div_iff_of_pos_right hs1).mpr (by norm_num)
  have hD : (0 : ℝ) <
      0.05 / colNorm [pA, pB] 1 * 0.6 - 0.01 / colNorm [pA, pB] 1 * 0.6 :=
    sub_pos.mpr hab
  have hg0 : goodVal [pA, pB] 0 = 1 / colNorm [pA, pB] 0 * 0.2 := by
    simp [goodVal, marks, listMax, hA0, hB0]
  have hg1 : goodVal [pA, pB] 1 = 0.01 / colNorm [pA, pB] 1 * 0.6 := by
    simp [goodVal, marks, listMin, hA1, hB1]
    exact hab.le
  have hg2 : goodVal [pA, pB] 2 = 1 / colNorm [pA, pB] 2 * 0.2 := by
    simp [goodVal, marks, listMin, hA2, hB2]
  have hbad0 : badVal [pA, pB] 0 = 1 / colNorm [pA, pB] 0 * 0.2 := by
    simp [badVal, marks, listMin, hA0, hB0]
  have hbad1 : badVal [pA, pB] 1 = 0.05 / colNorm [pA, pB] 1 * 0.6 := by
    simp [badVal, marks, listMax, hA1, hB1]
    exact hab.le
  have hbad2 : badVal [pA, pB] 2 = 1 / colNorm [pA, pB] 2 * 0.2 := by
    simp [badVal, marks, listMax, hA2, hB2]
  have hdAg : euclidDist (fun j => wval [pA, pB] j pA) (goodVal [pA, pB]) = 0 := by
    unfold euclidDist
    rw [Fin.sum_univ_three]
    simp only [hA0, hA1, hA2, hg0, hg1, hg2]
    rw [show (1 / colNorm [pA, pB] 0 * 0.2 - 1 / colNorm [pA, pB] 0 * 0.2) ^ 2 +
        (0.01 / colNorm [pA, pB] 1 * 0.6 - 0.01 / colNorm [pA, pB] 1 * 0.6) ^ 2 +
        (1 / colNorm [pA, pB] 2 * 0.2 - 1 / colNorm [pA, pB] 2 * 0.2) ^ 2
        = (0 : ℝ) by ring]
    exact Real.sqrt_zero
  have hdAb : euclidDist (fun j => wval [pA, pB] j pA) (badVal [pA, pB]) =
      0.05 / colNorm [pA, pB] 1 * 0.6 - 0.01 / colNorm [pA, pB] 1 * 0.6 := by
    unfold euclidDist
    rw [Fin.sum_univ_three]
    simp only [hA0, hA1, hA2, hbad0, hbad1, hbad2]
    rw [show (1 / colNorm [pA, pB] 0 * 0.2 - 1 / colNorm [pA, pB] 0 * 0.2) ^ 2 +
        (0.01 / colNorm [pA, pB] 1 * 0.6 - 0.05 / colNorm [pA, pB] 1 * 0.6) ^ 2 +
        (1 / colNorm [pA, pB] 2 * 0.2 - 1 / colNorm [pA, pB] 2 * 0.2) ^ 2
        = (0.05 / colNorm [pA, pB] 1 * 0.6 - 0.01 / colNorm [pA, pB] 1 * 0.6) ^ 2
        by ring]
    exact Real.sqrt_sq hD.le
  have hdBg : euclidDist (fun j => wval [pA, pB] j pB) (goodVal [pA, pB]) =
      0.05 / colNorm [pA, pB] 1 * 0.6 - 0.01 / colNorm [pA, pB] 1 * 0.6 := by
    unfold euclidDist
    rw [Fin.sum_univ_three]
    simp only [hB0, hB1, hB2, hg0, hg1, hg2]
    rw [show (1 / colNorm [pA, pB] 0 * 0.2 - 1 / colNorm [pA, pB] 0 * 0.2) ^ 2 +
        (0.05 / colNorm [pA, pB] 1 * 0.6 - 0.01 / colNorm [pA, pB] 1 * 0.6) ^ 2 +
        (1 / colNorm [pA, pB] 2 * 0.2 - 1 / colNorm [pA, pB] 2 * 0.2) ^ 2
        = (0.05 / colNorm [pA, pB] 1 * 0.6 - 0.01 / colNorm [pA, pB] 1 * 0.6) ^ 2
        by ring]
    exact Real.sqrt_sq hD.le
  have hdBb : euclidDist (fun j => wval [pA, pB] j pB) (badVal [pA, pB]) = 0 := by
    unfold euclidDist
    rw [Fin.sum_univ_three]
    simp only [hB0, hB1, hB2, hbad0, hbad1, hbad2]
    rw [show (1 / colNorm [pA, pB] 0 * 0.2 - 1 / colNorm [pA, pB] 0 * 0.2) ^ 2 +
        (0.05 / colNorm [pA, pB] 1 * 0.6 - 0.05 / colNorm [pA, pB] 1 * 0.6) ^ 2 +
        (1 / colNorm [pA, pB] 2 * 0.2 - 1 / colNorm [pA, pB] 2 * 0.2) ^ 2
        = (0 : ℝ) by ring]
    exact Real.sqrt_zero
  constructor
  · unfold score topsisCoef
    rw [hdAg, hdAb, zero_add]
    exact div_self (ne_of_gt hD)
  · unfold score topsisCoef
    rw [hdBg, hdBb, add_zero, zero_div]

lemma c4_rankedFor : rankedFor [pA, pB] c4pay = [pA, pB] := by
  obtain ⟨hsA, hsB⟩ := c4_scores
  have hle : score [pA, pB] pB ≤ score [pA, pB] pA := by
    rw [hsA, hsB]; norm_num
  unfold rankedFor
  have helig : eligibleRows [pA, pB] c4pay.eventTimeRes c4pay.cur = [pA, pB] := rfl
  rw [helig]
  unfold topsis
  simp only [List.map_cons, List.map_nil, List.insertionSort, List.orderedInsert]
  rw [if_pos hle]
  have hfil : ([(pA, score [pA, pB] pA), (pB, score [pA, pB] pB)].filter
      (fun pr => pr.1.TIME ≤ c4pay.eventTimeRes)) =
      [(pA, score [pA, pB] pA), (pB, score [pA, pB] pB)] := by
    simp [pA, pB, c4pay]
  rw [hfil]
  simp only [List.insertionSort, List.orderedInsert]
  rw [if_pos hle]
  simp

lemma c4_run : (optimize_routes [c4pay] [pA, pB] (fun _ => 1) (fun _ => 0)).1 =
    [⟨"1-2", 99, 1, some 1⟩] := by
  unfold optimize_routes
  have happ : applyFirst [pA, pB] = [pA, pB] := rfl
  rw [happ, convertRows_one]
  unfold batchRun batchStep
  simp only [List.foldl_cons, List.foldl_nil, List.nil_append]
  suffices hrun : (runPayment (fun _ => 0) (fun _ => 1) [pA, pB] (fun _ => 0) 0
      c4pay).1 = ⟨"1-2", 99, 1, some 1⟩ by
    rw [hrun]
  unfold runPayment
  rw [c4_rankedFor]
  simp only [List.foldl_cons, List.foldl_nil]
  have ht1 : toString (1 : ℕ) = "1" := rfl
  have ht2 : toString (2 : ℕ) = "2" := rfl
  have hint : String.intercalate "-" ["1", "2"] = "1-2" := rfl
  norm_num [step, finishPayment, pA, pB, c4pay, Function.update_apply,
    ht1, ht2, hint]
  decide

/-! ## Claim theorems: C3 -/

/-- C3 amended: for a transaction whose only eligible provider has
conversion probability 0 (amount within bounds, daily limit not
reached), the flow equals that provider's identifier and no successful
provider is recorded, but the recorded profit equals the FULL
transaction amount, not 0: the flow is non-empty, so line 172 sets
Profit = amount - total_commission with total_commission still 0. -/
theorem C3_conv_zero_run (rand : ℕ → ℝ) (p : ProvRow) (pay : Payment)
    (hconv : p.CONVERSION = 0) (hrand : ∀ n, 0 ≤ rand n)
    (hbounds : ¬(pay.amount < p.MIN_SUM ∨ p.MAX_SUM < pay.amount))
    (hlim : 0 < p.LIMIT_MAX)
    (hT : p.TIME ≤ pay.eventTimeRes) (hc : p.CURRENCY = pay.cur)
    (hID : toString p.ID ≠ "") :
    (optimize_routes [pay] [p] (fun _ => 1) rand).1 =
      [⟨toString p.ID, pay.amount, p.AVG_TIME, none⟩] :=
  run_conv_zero rand p pay hconv hrand hbounds hlim hT hc hID

/-- C3 counterexample: provider 5 with conversion 0 and the 100-unit
payment: the flow is "5" and no provider committed, but the recorded
profit is 100, not 0 as the claim asserts. -/
theorem C3_counterexample :
    (optimize_routes [c3pay] [c3prov] (fun _ => 1) (fun _ => 0)).1 =
      [⟨"5", 100, 2, none⟩] ∧ (100 : ℝ) ≠ 0 := by
  constructor
  · have h := run_conv_zero (fun _ => 0) c3prov c3pay rfl (fun _ => le_refl 0)
      (by norm_num [c3prov, c3pay]) (by norm_num [c3prov])
      (by norm_num [c3prov, c3pay]) rfl (by decide)
    rw [h]
    norm_num [c3prov, c3pay]
    decide
  · norm_num

/-- Witness for C3's amended statement at the concrete provider 5 and
the 100-unit payment. -/
theorem C3_witness :
    (optimize_routes [c3pay] [c3prov] (fun _ => 1) (fun _ => 0)).1 =
      [⟨toString c3prov.ID, c3pay.amount, c3prov.AVG_TIME, none⟩] :=
  C3_conv_zero_run (fun _ => 0) c3prov c3pay rfl (fun _ => le_refl 0)
    (by norm_num [c3prov, c3pay]) (by norm_num [c3prov])
    (by norm_num [c3prov, c3pay]) rfl (by decide)

/-! ## Claim theorems: C4 -/

/-- C4 counterexample: in the two-provider scenario (commissions 0.01
and 0.05, both conversion 1, daily max 1000, 100-unit payment) the
resulting flow is "1-2", not just the first provider's identifier "1":
the simulation keeps appending providers after the commit, so the claim
"the resulting flow is A" is false. -/
theorem C4_counterexample :
    ((optimize_routes [c4pay] [pA, pB] (fun _ => 1) (fun _ => 0)).1.map
      (fun r => r.flow)) = ["1-2"] ∧ ("1-2" : String) ≠ "1" := by
  constructor
  · rw [c4_run]
    rfl
  · decide

/-- C4 amended: provider 1 (the low-commission provider) scores 1 and
provider 2 scores 0, so provider 1 is ranked first; the run commits on
provider 1 (successful provider = 1, profit = 100 − 1 = 99) but the flow
is "1-2": provider 2 is still attempted and appended after the commit. -/
theorem C4_two_provider_scenario :
    score [pA, pB] pA = 1 ∧ score [pA, pB] pB = 0 ∧
    rankedFor [pA, pB] c4pay = [pA, pB] ∧
    (optimize_routes [c4pay] [pA, pB] (fun _ => 1) (fun _ => 0)).1 =
      [⟨"1-2", 99, 1, some 1⟩] :=
  ⟨c4_scores.1, c4_scores.2, c4_rankedFor, c4_run⟩

/-! ## Claim theorems: C7, C8, C9, C10 -/

/-- C7: whenever the TOPSIS score dist_bad / (dist_good + dist_bad) is
defined (non-zero denominator), it lies in [0,1]; a row equal to the
ideal vector on every criterion scores 1, and a row equal to the
anti-ideal vector on every criterion scores 0. -/
theorem C7_topsis_score_bounds {n : ℕ} (row good bad : Fin n → ℝ)
    (h : euclidDist row good + euclidDist row bad ≠ 0) :
    (0 ≤ topsisCoef row good bad ∧ topsisCoef row good bad ≤ 1) ∧
    (row = good → topsisCoef row good bad = 1) ∧
    (row = bad → topsisCoef row good bad = 0) := by
  have hg := euclidDist_nonneg row good
  have hb := euclidDist_nonneg row bad
  have hd : 0 < euclidDist row good + euclidDist row bad :=
    lt_of_le_of_ne (add_nonneg hg hb) (Ne.symm h)
  refine ⟨⟨div_nonneg hb hd.le, ?_⟩, ?_, ?_⟩
  · exact (div_le_one hd).mpr (le_add_of_nonneg_left hg)
  · intro hrow
    have h0 : euclidDist row good = 0 := by rw [hrow]; exact euclidDist_self good
    have hb0 : euclidDist row bad ≠ 0 := by
      intro hc; exact h (by rw [h0, hc, add_zero]
      )
    unfold topsisCoef
    rw [h0, zero_add, div_self hb0]
  · intro hrow
    have h0 : euclidDist row bad = 0 := by rw [hrow]; exact euclidDist_self bad
    unfold topsisCoef
    rw [h0, zero_div]

/-- Witness for C7 at the concrete 1-criterion matrix row (1) with ideal
(1) and anti-ideal (0): the denominator is non-zero and the row, equal
to the ideal, scores 1. -/
theorem C7_witness :
    (euclidDist (fun _ : Fin 1 => (1 : ℝ)) (fun _ => 1) +
      euclidDist (fun _ : Fin 1 => (1 : ℝ)) (fun _ => 0) ≠ 0) ∧
    topsisCoef (fun _ : Fin 1 => (1 : ℝ)) (fun _ => 1) (fun _ => 0) = 1 := by
  have h1 : euclidDist (fun _ : Fin 1 => (1 : ℝ)) (fun _ => 1) = 0 :=
    euclidDist_self _
  have h2 : euclidDist (fun _ : Fin 1 => (1 : ℝ)) (fun _ => 0) = 1 := by
    simp [euclidDist]
  have h : euclidDist (fun _ : Fin 1 => (1 : ℝ)) (fun _ => 1) +
      euclidDist (fun _ : Fin 1 => (1 : ℝ)) (fun _ => 0) ≠ 0 := by
    rw [h1, h2]; norm_num
  exact ⟨h, (C7_topsis_score_bounds _ _ _ h).2.1 rfl⟩

lemma penStep_le (ps : List ProvRow) (daily : ℕ → ℝ) (acc : ℝ × ℝ) (i : ℕ)
    (h : acc.1 ≤ acc.2) : (penStep ps daily acc i).1 ≤ (penStep ps daily acc i).2 := by
  unfold penStep
  split_ifs with h1 h2 h2
  · exact add_le_add_right h _
  · exact absurd h1.2 h2
  · have : (0 : ℝ) ≤ 0.01 * (limitMinOf ps i - daily i) := by
      have : (0 : ℝ) ≤ limitMinOf ps i - daily i := by linarith
      linarith
    linarith
  · exact h

lemma penFold_le (ps : List ProvRow) (daily : ℕ → ℝ) :
    ∀ (l : List ℕ) (acc : ℝ × ℝ), acc.1 ≤ acc.2 →
      (l.foldl (penStep ps daily) acc).1 ≤ (l.foldl (penStep ps daily) acc).2 := by
  intro l
  induction l with
  | nil => intro acc h; simpa using h
  | cons i l ih =>
      intro acc h
      simpa using ih (penStep ps daily acc i) (penStep_le ps daily acc i h)

/-- C8: over any final daily-sum state, the aggregate shortfall penalty
of used providers never exceeds the aggregate shortfall penalty of all
providers: each used-provider term also enters the all-provider sum and
every term is non-negative. -/
theorem C8_penaltyUsed_le_penaltyAll (ps : List ProvRow) (daily : ℕ → ℝ) :
    (penalties ps daily).1 ≤ (penalties ps daily).2 := by
  unfold penalties
  exact penFold_le ps daily _ (0, 0) le_rfl

/-- C9: the whole batch computation is a function of the inputs and the
random stream: running it twice with the same inputs and the same stream
of uniform samples yields identical per-transaction results and
identical aggregate penalties. -/
theorem C9_deterministic_replay (payments : List Payment)
    (providers : List ProvRow) (rates : String → ℝ) (r1 r2 : ℕ → ℝ)
    (h : ∀ n, r1 n = r2 n) :
    optimize_routes payments providers rates r1 =
      optimize_routes payments providers rates r2 := by
  have : r1 = r2 := funext h
  rw [this]

/-- Witness for C9 on a concrete batch and stream. -/
theorem C9_witness :
    optimize_routes [] [] (fun _ => 1) (fun _ => 0) =
      optimize_routes [] [] (fun _ => 1) (fun _ => 0) :=
  C9_deterministic_replay [] [] (fun _ => 1) (fun _ => 0) (fun _ => 0)
    (fun _ => rfl)

/-- C10: when every transaction of the batch ends with an empty flow,
the batch mean processing time is undefined (pandas NaN, modelled as
none): the mean is taken only over rows with non-empty flow. -/
theorem C10_time_mean_undefined_when_all_flows_empty
    (payments : List Payment) (providers : List ProvRow)
    (rates : String → ℝ) (rand : ℕ → ℝ)
    (h : ∀ r ∈ (optimize_routes payments providers rates rand).1, r.flow = "") :
    time_mean (optimize_routes payments providers rates rand).1 = none := by
  unfold time_mean
  have hf : (optimize_routes payments providers rates rand).1.filter
      (fun r => r.flow ≠ "") = [] := by
    rw [List.filter_eq_nil_iff]
    intro r hr
    simp [h r hr]
  rw [hf]
  simp

/-- Witness for C10: the empty batch has all (zero) flows empty, and its
mean processing time is none. -/
theorem C10_witness :
    (∀ r ∈ (optimize_routes [] [] (fun _ => 1) (fun _ => 0)).1, r.flow = "") ∧
    time_mean (optimize_routes [] [] (fun _ => 1) (fun _ => 0)).1 = none := by
  have h : ∀ r ∈ (optimize_routes [] [] (fun _ => 1) (fun _ => 0)).1,
      r.flow = "" := by
    simp [optimize_routes, batchRun]
  exact ⟨h, C10_time_mean_undefined_when_all_flows_empty [] [] _ _ h⟩

end XmasHack
